import Mathlib

/-!
Shallow embedding of the GC OS abstraction layer for Windows
(`src/gc/windows/gcenv.windows.cpp`): processor-group topology and
weighting, the restricted-physical-memory-limit resolver, write-watch
granularity checking, the cache-size probe and the process CPU count.
Machine integers are modelled as `Nat` with explicit `% 2 ^ w`
reductions exactly where the C code performs wrapping arithmetic
(`DWORD` = 32 bits, `WORD` = 16 bits, `size_t`/`uint64_t` = 64 bits).
OS calls are modelled by environment records holding their outcomes;
debug-build `assert` failures are modelled as distinguished outcomes.
-/

namespace GcenvWindows

/-- Sentinel used by `GetRestrictedPhysicalMemoryLimit`: `(size_t)UINTPTR_MAX`
on a 64-bit target. -/
def UINTPTR_MAX : Nat := 2 ^ 64 - 1

/-- Page size asserted by `GCToOSInterface` (the code asserts
`systemInfo.dwPageSize == 0x1000`). -/
def OS_PAGE_SIZE : Nat := 4096

/-! ## Memory budget resolver (`GetRestrictedPhysicalMemoryLimit`) -/

/-- Fields of `MEMORYSTATUSEX` read by this layer, as returned by
`GlobalMemoryStatusEx` via `GetProcessMemoryLoad`.  The OS facts are
immutable for the process lifetime, so a single record serves every
(re-)read in one computation. -/
structure MEMORYSTATUSEX where
  dwMemoryLoad : Nat
  ullTotalPhys : Nat
  ullAvailPhys : Nat
  ullTotalVirtual : Nat
  ullAvailVirtual : Nat

/-- Outcome of every OS interaction performed by
`GetRestrictedPhysicalMemoryLimit`: library/proc-address lookups, the
`IsProcessInJob` answer, and the job object extended limit information
(`JOBOBJECT_EXTENDED_LIMIT_INFORMATION`). -/
structure MemEnv where
  kernel32Ok : Bool
  isProcessInJobProcOk : Bool
  isProcessInJobCallOk : Bool
  inJob : Bool
  getProcessMemoryInfoProcOk : Bool
  queryJobObjectProcOk : Bool
  queryJobCallOk : Bool
  limitJobMemory : Bool
  jobMemoryLimit : Nat
  limitProcessMemory : Bool
  processMemoryLimit : Nat
  limitWorkingSet : Bool
  maximumWorkingSetSize : Nat
  ms : MEMORYSTATUSEX

/-- Well-formedness of the environment: all quantities delivered by the
OS fit in the 64-bit words the C code stores them in. -/
def MemEnv.WF (env : MemEnv) : Prop :=
  env.ms.ullTotalPhys < 2 ^ 64 ∧ env.ms.ullAvailPhys < 2 ^ 64 ∧
  env.ms.ullTotalVirtual < 2 ^ 64 ∧ env.jobMemoryLimit < 2 ^ 64 ∧
  env.processMemoryLimit < 2 ^ 64 ∧ env.maximumWorkingSetSize < 2 ^ 64

instance (env : MemEnv) : Decidable env.WF := by
  unfold MemEnv.WF
  infer_instance

/-- True when every step up to and including
`QueryInformationJobObject(JobObjectExtendedLimitInformation)` succeeds,
i.e. when the quota-reading block of `GetRestrictedPhysicalMemoryLimit`
executes. -/
def jobQueryReadable (env : MemEnv) : Bool :=
  env.kernel32Ok && env.isProcessInJobProcOk && env.isProcessInJobCallOk &&
  env.inJob && env.getProcessMemoryInfoProcOk && env.queryJobObjectProcOk &&
  env.queryJobCallOk

/-- Value of `job_physical_memory_limit` after the job-query block: each
of the three quotas defaults to `UINTPTR_MAX` and is overwritten only
when its `LimitFlags` bit is set; the minimum of the three is then
clamped by `ms.ullTotalPhys`.  On any earlier failure the variable keeps
its initial `UINTPTR_MAX`. -/
def rawJobQuota (env : MemEnv) : Nat :=
  if jobQueryReadable env then
    min
      (min
        (min
          (if env.limitJobMemory then env.jobMemoryLimit else UINTPTR_MAX)
          (if env.limitProcessMemory then env.processMemoryLimit else UINTPTR_MAX))
        (if env.limitWorkingSet then env.maximumWorkingSetSize else UINTPTR_MAX))
      env.ms.ullTotalPhys
  else UINTPTR_MAX

/-- The `exit:` normalisation: a quota still equal to `UINTPTR_MAX`
becomes `0` (unrestricted). -/
def normalizedJobQuota (env : MemEnv) : Nat :=
  if rawJobQuota env = UINTPTR_MAX then 0 else rawJobQuota env

/-- `total_virtual` as left by the job-query block (`ms.ullTotalVirtual`
when the query ran, the initial `0` otherwise). -/
def jobPathTotalVirtual (env : MemEnv) : Nat :=
  if jobQueryReadable env then env.ms.ullTotalVirtual else 0

/-- `total_virtual` after the `exit:` block re-reads the memory status
when it is still `0`. -/
def exitTotalVirtual (env : MemEnv) : Nat :=
  if jobPathTotalVirtual env = 0 then env.ms.ullTotalVirtual
  else jobPathTotalVirtual env

/-- `total_physical` at the final virtual-memory comparison: the
normalised job quota when one is in force, otherwise the value left by
the job block (`ms.ullAvailPhys`) or by the re-read (`ms.ullTotalPhys`). -/
def exitTotalPhysical (env : MemEnv) : Nat :=
  if normalizedJobQuota env ≠ 0 then normalizedJobQuota env
  else if jobPathTotalVirtual env = 0 then env.ms.ullTotalPhys
  else env.ms.ullAvailPhys

/-- The pure computation performed by the first caller of
`GetRestrictedPhysicalMemoryLimit`: the stored limit together with the
`g_UseRestrictedVirtualMemory` flag. -/
def getRestrictedPhysicalMemoryLimitCompute (env : MemEnv) : Nat × Bool :=
  if exitTotalVirtual env < exitTotalPhysical env then (exitTotalVirtual env, true)
  else (normalizedJobQuota env, false)

/-- One call to `GetRestrictedPhysicalMemoryLimit` against an explicit
cache state (`g_RestrictedPhysicalMemoryLimit`).  Result: the returned
value, the cache after the call, and whether the computation ran (as
opposed to the cached fast path). -/
def getRestrictedPhysicalMemoryLimitCall (cache : Nat) (env : MemEnv) :
    Nat × Nat × Bool :=
  if cache ≠ UINTPTR_MAX then (cache, cache, false)
  else
    ((getRestrictedPhysicalMemoryLimitCompute env).1,
     (getRestrictedPhysicalMemoryLimitCompute env).1, true)

/-- `GCToOSInterface::GetPhysicalMemoryLimit`: the restricted limit when
non-zero (with `is_restricted = true`), otherwise `ms.ullTotalPhys`. -/
def GetPhysicalMemoryLimit (env : MemEnv) : Nat × Bool :=
  if (getRestrictedPhysicalMemoryLimitCompute env).1 ≠ 0 then
    ((getRestrictedPhysicalMemoryLimitCompute env).1, true)
  else (env.ms.ullTotalPhys, false)

/-- Specification-side list of the quotas that are actually set (an
unset quota simply does not appear, rather than appearing as zero). -/
def setQuotaList (env : MemEnv) : List Nat :=
  (if env.limitJobMemory then [env.jobMemoryLimit] else []) ++
  (if env.limitProcessMemory then [env.processMemoryLimit] else []) ++
  (if env.limitWorkingSet then [env.maximumWorkingSetSize] else [])

/-- Specification-side minimum of the quotas that are actually set
(`UINTPTR_MAX`, i.e. no constraint, when none is set). -/
def minSetQuota (env : MemEnv) : Nat :=
  (setQuotaList env).foldr min UINTPTR_MAX

/-- Specification-side effective physical capacity of claim C3: the job
limit when one is in force, otherwise the machine total physical
memory. -/
def effectivePhysicalCapacity (env : MemEnv) : Nat :=
  if normalizedJobQuota env ≠ 0 then normalizedJobQuota env
  else env.ms.ullTotalPhys

/-! ## Processor-group topology (`InitCPUGroupInfo` and friends) -/

/-- Euclid loop of the C `GCD` helper, with explicit fuel (the second
argument strictly decreases, so `v + 1` units of fuel always suffice).
All operands stay below `2 ^ 32`, and `%` is exact on `Nat`, so no
wrapping reduction is needed. -/
def GCDAux : Nat → Nat → Nat → Nat
  | 0, u, _ => u
  | fuel + 1, u, v => if v = 0 then u else GCDAux fuel v (u % v)

/-- `GCD(u, v)` from the source. -/
def GCD (u v : Nat) : Nat := GCDAux (v + 1) u v

/-- `LCM(u, v) = u / GCD(u, v) * v` computed in `DWORD` arithmetic: the
division is exact, the multiplication wraps at `2 ^ 32`. -/
def LCM (u v : Nat) : Nat := u / GCD u v * v % 2 ^ 32

/-- `dwWeight` as accumulated by `InitCPUGroupInfoArray`: the running
`LCM` of every group's `nr_active`, starting from `1`. -/
def dwWeightOf (groups : List Nat) : Nat := List.foldl LCM 1 groups

/-- `groupWeight` assigned to a group with `nr_active = nr`:
`dwWeight / nr` in `DWORD` arithmetic (exact `Nat` division). -/
def groupWeightOf (groups : List Nat) (nr : Nat) : Nat := dwWeightOf groups / nr

/-- `g_nProcessors` as accumulated by `InitCPUGroupInfoArray`
(`DWORD` addition of every group's `nr_active`). -/
def nProcessorsOf (groups : List Nat) : Nat :=
  List.foldl (fun acc nr => (acc + nr) % 2 ^ 32) 0 groups

/-- Loop body of `InitCPUGroupInfoRange`: the accumulator is the running
`nr_proc` (a `WORD`), each group records `begin = nr_proc` before the
addition and `end = nr_proc - 1` after it (both in `WORD` arithmetic). -/
def initCPUGroupInfoRangeAux : Nat → List Nat → List (Nat × Nat)
  | _, [] => []
  | nr_proc, nr :: rest =>
    (nr_proc, ((nr_proc + nr) % 2 ^ 16 + (2 ^ 16 - 1)) % 2 ^ 16) ::
      initCPUGroupInfoRangeAux ((nr_proc + nr) % 2 ^ 16) rest

/-- `InitCPUGroupInfoRange`: the `(begin, end)` pairs of every group, in
declaration order. -/
def initCPUGroupInfoRange (groups : List Nat) : List (Nat × Nat) :=
  initCPUGroupInfoRangeAux 0 groups

/-- Loop of `GCToOSInterface::GetGroupForProcessor`: `bTemp` accumulates
`nr_active` in `WORD` arithmetic; the first group whose running total
exceeds the processor number is returned together with the `bDiff`
computed at the end of the previous iteration (`WORD` subtraction).
`none` models falling off the loop with the out-parameters unwritten. -/
def GetGroupForProcessorAux : List Nat → Nat → Nat → Nat → Nat → Option (Nat × Nat)
  | [], _, _, _, _ => none
  | nr :: rest, pn, i, bTemp, bDiff =>
    if pn < (bTemp + nr) % 2 ^ 16 then some (i, bDiff)
    else
      GetGroupForProcessorAux rest pn (i + 1) ((bTemp + nr) % 2 ^ 16)
        ((pn + 2 ^ 16 - (bTemp + nr) % 2 ^ 16) % 2 ^ 16)

/-- `GCToOSInterface::GetGroupForProcessor` for a discovered topology
(the `uint16_t` argument is reduced mod `2 ^ 16` to reflect its type). -/
def GetGroupForProcessor (groups : List Nat) (processor_number : Nat) :
    Option (Nat × Nat) :=
  GetGroupForProcessorAux groups (processor_number % 2 ^ 16) 0 0
    (processor_number % 2 ^ 16)

/-- Specification-side sum of the first `k` group sizes (the prefix sum
defining each group's `begin` index). -/
def sumTo : List Nat → Nat → Nat
  | _, 0 => 0
  | [], _ + 1 => 0
  | nr :: rest, k + 1 => nr + sumTo rest k

/-- Specification-side index of the group containing a global processor
index: the first group whose cumulative size exceeds it. -/
def groupIdxOf : List Nat → Nat → Nat
  | [], _ => 0
  | nr :: rest, pn => if pn < nr then 0 else groupIdxOf rest (pn - nr) + 1

/-- Specification-side `(begin, end)` ranges obtained by an exact (no
wrapping) prefix sum starting at `b`. -/
def rangesFrom : Nat → List Nat → List (Nat × Nat)
  | _, [] => []
  | b, nr :: rest => (b, b + nr - 1) :: rangesFrom (b + nr) rest

/-! ## Group discovery failure handling (`InitCPUGroupInfoArray`) -/

/-- `ERROR_INSUFFICIENT_BUFFER`. -/
def ERROR_INSUFFICIENT_BUFFER : Nat := 122

/-- Outcomes of the OS interactions performed by
`InitCPUGroupInfoArray`: the size-probing
`GetLogicalProcessorInformationEx(RelationGroup, NULL, &cb)` call (its
success flag, the thread's last error after it, and the required size it
reports when it fails with `ERROR_INSUFFICIENT_BUFFER`), the buffer
allocation, the second filling call, and the group sizes it reports. -/
structure GlpiExEnv where
  firstCallOk : Bool
  lastError : Nat
  requiredSize : Nat
  allocOk : Bool
  secondCallOk : Bool
  activeGroupCounts : List Nat

/-- Result of `InitCPUGroupInfoArray` in a debug build: `failed` is the
`return false` path, `assertTripped` models the `assert(cbSLPIEx)`
firing, `ok` carries the discovered per-group `nr_active` list. -/
inductive InitArrayOutcome where
  | failed
  | assertTripped
  | ok (groups : List Nat)
deriving DecidableEq

/-- `InitCPUGroupInfoArray`.  Note the guard is
`if (call succeeded && GetLastError() != ERROR_INSUFFICIENT_BUFFER) return false;`
— when the probing call FAILS with an error other than
`ERROR_INSUFFICIENT_BUFFER`, the guard does not trigger, `cbSLPIEx`
stays `0`, and `assert(cbSLPIEx)` fires (compare `GetLPI` in the same
file, whose guard negates the call). -/
def initCPUGroupInfoArrayModel (env : GlpiExEnv) : InitArrayOutcome :=
  if env.firstCallOk && env.lastError ≠ ERROR_INSUFFICIENT_BUFFER then
    InitArrayOutcome.failed
  else
    if (if !env.firstCallOk && env.lastError = ERROR_INSUFFICIENT_BUFFER then
          env.requiredSize else 0) = 0 then
      InitArrayOutcome.assertTripped
    else if !env.allocOk then InitArrayOutcome.failed
    else if !env.secondCallOk then InitArrayOutcome.failed
    else InitArrayOutcome.ok env.activeGroupCounts

/-- Result of `InitCPUGroupInfo` in a debug build: the final
`g_fEnableGCCPUGroups` flag, or an assertion abort propagated from
`InitCPUGroupInfoArray`. -/
inductive InitCpuGroupOutcome where
  | done (enabled : Bool)
  | assertTripped
deriving DecidableEq

/-- `InitCPUGroupInfo`: disabled when the config switch is off or when
discovery fails; enabled only when more than one group exists
(`InitCPUGroupInfoRange` itself always returns true on this target). -/
def initCPUGroupInfoModel (gcCpuGroupCfg : Bool) (env : GlpiExEnv) :
    InitCpuGroupOutcome :=
  if !gcCpuGroupCfg then InitCpuGroupOutcome.done false
  else
    match initCPUGroupInfoArrayModel env with
    | InitArrayOutcome.assertTripped => InitCpuGroupOutcome.assertTripped
    | InitArrayOutcome.failed => InitCpuGroupOutcome.done false
    | InitArrayOutcome.ok groups =>
        InitCpuGroupOutcome.done (decide (1 < groups.length))

/-- `GCToOSInterface::Initialize` in a debug build: asserts the page
size, runs group discovery, and otherwise returns `true`
unconditionally; `none` models an assertion abort. -/
def gcToOSInterfaceInitModel (pageSize : Nat) (gcCpuGroupCfg : Bool)
    (env : GlpiExEnv) : Option Bool :=
  if pageSize ≠ OS_PAGE_SIZE then none
  else
    match initCPUGroupInfoModel gcCpuGroupCfg env with
    | InitCpuGroupOutcome.assertTripped => none
    | InitCpuGroupOutcome.done _ => some true

/-! ## Write watch (`GCToOSInterface::GetWriteWatch`) -/

/-- Result of one `GetWriteWatch` call in a debug build. -/
inductive WriteWatchResult where
  | ok
  | failed
  | assertTripped
deriving DecidableEq

/-- `GCToOSInterface::GetWriteWatch`: success is the OS call returning
`0`; on success the reported granularity is asserted to equal
`OS_PAGE_SIZE`; on OS failure, `false` is returned to the caller. -/
def getWriteWatchModel (osCallRet : Nat) (granularity : Nat) : WriteWatchResult :=
  if osCallRet = 0 then
    if granularity = OS_PAGE_SIZE then WriteWatchResult.ok
    else WriteWatchResult.assertTripped
  else WriteWatchResult.failed

/-! ## Cache size probe (`GCToOSInterface::GetCacheSizePerLogicalCpu`) -/

/-- CPU vendor as recognised by the `cpuid` leaf-0 signature tests
(`GenuineIntel` / `AuthenticAMD` / anything else). -/
inductive CpuVendor where
  | intel
  | amd
  | unknownVendor
deriving DecidableEq

/-- Compile-time target architecture selecting among the `#if` branches
of `GetCacheSizePerLogicalCpu`. -/
inductive TargetArch where
  | amd64
  | x86
  | arm64
  | otherArch
deriving DecidableEq

/-- Immutable hardware facts read by `GetCacheSizePerLogicalCpu`:
`cpuid` register values (modelled as the 32-bit quantities the code
extracts) and the OS cache enumeration result
(`GetLogicalProcessorCacheSizeFromOS`). -/
structure CacheEnv where
  arch : TargetArch
  vendor : CpuVendor
  maxCpuId : Nat
  maxExtendedId : Nat
  l2Info : Nat
  l3Info : Nat
  leaf1Eax : Nat
  ncoresInfo : Nat
  osCacheSize : Nat

/-- The vendor-specific branch taken on `_AMD64_` / `_X86_` targets
(`bit64` is the `#ifdef BIT64` distinction between them).  Intel: OS
enumeration, tripled on 64-bit cores with `maxCpuId >= 2`.  AMD: L2 size
from `cpuid 0x80000006` ECX bits 31-16, plus (for family `>= 0x10`,
except 65nm Barcelona model 2) the per-core share of the L3 size from
EDX bits 31-18, the L3 size computed in wrapping `DWORD` arithmetic.
Unrecognised vendor: the static zeros are left untouched. -/
def cacheSizesX86 (bit64 : Bool) (env : CacheEnv) : Nat × Nat :=
  match env.vendor with
  | CpuVendor.intel =>
      if bit64 && decide (2 ≤ env.maxCpuId) then
        (env.osCacheSize * 3, env.osCacheSize)
      else (env.osCacheSize, env.osCacheSize)
  | CpuVendor.amd =>
      if 0x80000006 ≤ env.maxExtendedId then
        let maxTrueSize := env.l2Info / 2 ^ 16 * 1024
        let dwBaseFamily := env.leaf1Eax / 2 ^ 8 % 2 ^ 4
        let dwExtFamily := env.leaf1Eax / 2 ^ 20 % 2 ^ 8
        let dwFamily :=
          if 0xF ≤ dwBaseFamily then dwBaseFamily + dwExtFamily else dwBaseFamily
        let dwBaseModel := env.leaf1Eax / 2 ^ 4 % 2 ^ 4
        let dwExtModel := env.leaf1Eax / 2 ^ 16 % 2 ^ 4
        let dwModel :=
          if 0xF ≤ dwBaseFamily then dwExtModel * 2 ^ 4 + dwBaseModel
          else dwBaseModel
        let total :=
          if 0x10 ≤ dwFamily then
            if dwFamily = 0x10 ∧ dwModel = 2 then maxTrueSize
            else
              maxTrueSize +
                env.l3Info / 2 ^ 18 * 512 * 1024 % 2 ^ 32 /
                  (env.ncoresInfo % 2 ^ 8 + 1)
          else maxTrueSize
        (total, total)
      else (0, 0)
  | CpuVendor.unknownVendor => (0, 0)

/-- The `(maxSize, maxTrueSize)` pair computed by one full run of
`GetCacheSizePerLogicalCpu`'s slow path on the given target. -/
def getCacheSizesCompute (env : CacheEnv) : Nat × Nat :=
  match env.arch with
  | TargetArch.amd64 => cacheSizesX86 true env
  | TargetArch.x86 => cacheSizesX86 false env
  | TargetArch.arm64 => (env.osCacheSize * 3, env.osCacheSize)
  | TargetArch.otherArch => (env.osCacheSize, env.osCacheSize)

/-- One call to `GetCacheSizePerLogicalCpu` against an explicit state of
the two statics `(maxSize, maxTrueSize)`: the cached pair is used when
`maxSize` is non-zero, otherwise the slow path recomputes.  Result: the
returned value, the statics after the call, and whether the slow path
ran. -/
def getCacheSizeCall (state : Nat × Nat) (env : CacheEnv) (trueSize : Bool) :
    Nat × (Nat × Nat) × Bool :=
  if state.1 ≠ 0 then ((if trueSize then state.2 else state.1), state, false)
  else
    ((if trueSize then (getCacheSizesCompute env).2 else (getCacheSizesCompute env).1),
     getCacheSizesCompute env, true)

/-! ## Process CPU count (`GCToOSInterface::GetCurrentProcessCpuCount`) -/

/-- The `while (pmask) { pmask &= (pmask - 1); count++; }` population
count, with explicit fuel (the mask strictly decreases, so `m + 1` units
always suffice). -/
def popcountAux : Nat → Nat → Nat
  | 0, _ => 0
  | fuel + 1, m => if m = 0 then 0 else popcountAux fuel (m &&& (m - 1)) + 1

/-- Population count as computed by the source loop. -/
def popcount (m : Nat) : Nat := popcountAux (m + 1) m

/-- The slow path of `GetCurrentProcessCpuCount`: `1` when
`GetProcessAffinityMask` fails, otherwise the population count of
`pmask & smask` clamped to `64` when it is `0` or exceeds `64`. -/
def getCurrentProcessCpuCountCompute (query : Option (Nat × Nat)) : Nat :=
  match query with
  | none => 1
  | some (pmask, smask) =>
      if popcount (pmask &&& smask) = 0 ∨ 64 < popcount (pmask &&& smask) then 64
      else popcount (pmask &&& smask)

/-- One call to `GetCurrentProcessCpuCount` against an explicit state of
the static `cCPUs` (sentinel `0` = not yet computed).  Result: the
returned value, the static after the call, and whether the slow path
ran. -/
def getCurrentProcessCpuCountCall (cCPUs : Nat) (query : Option (Nat × Nat)) :
    Nat × Nat × Bool :=
  if cCPUs ≠ 0 then (cCPUs, cCPUs, false)
  else
    (getCurrentProcessCpuCountCompute query,
     getCurrentProcessCpuCountCompute query, true)

/-! ## Concrete environments used as examples -/

/-- Environment of the claim C2 example: a readable job with only the
job-wide memory limit set (100 MB), on a machine with 1 GB of physical
memory and the usual 128 TB 64-bit user address space. -/
def jobEnv100MB : MemEnv where
  kernel32Ok := true
  isProcessInJobProcOk := true
  isProcessInJobCallOk := true
  inJob := true
  getProcessMemoryInfoProcOk := true
  queryJobObjectProcOk := true
  queryJobCallOk := true
  limitJobMemory := true
  jobMemoryLimit := 104857600
  limitProcessMemory := false
  processMemoryLimit := 0
  limitWorkingSet := false
  maximumWorkingSetSize := 0
  ms := { dwMemoryLoad := 30, ullTotalPhys := 1073741824, ullAvailPhys := 536870912,
          ullTotalVirtual := 140737488355328, ullAvailVirtual := 140737488355328 }

/-- Environment of the claim C3 example: no job, a 2 GB virtual address
space (32-bit process) and 8 GB of physical memory. -/
def noJobEnv2GB : MemEnv where
  kernel32Ok := true
  isProcessInJobProcOk := true
  isProcessInJobCallOk := true
  inJob := false
  getProcessMemoryInfoProcOk := true
  queryJobObjectProcOk := true
  queryJobCallOk := true
  limitJobMemory := false
  jobMemoryLimit := 0
  limitProcessMemory := false
  processMemoryLimit := 0
  limitWorkingSet := false
  maximumWorkingSetSize := 0
  ms := { dwMemoryLoad := 10, ullTotalPhys := 8589934592, ullAvailPhys := 4294967296,
          ullTotalVirtual := 2147483648, ullAvailVirtual := 2147483648 }

/-- Environment of claim C9: a readable job with none of the three
memory-limit flags set, on a 64-bit machine with 16 GB of physical
memory. -/
def jobNoQuotaEnv : MemEnv where
  kernel32Ok := true
  isProcessInJobProcOk := true
  isProcessInJobCallOk := true
  inJob := true
  getProcessMemoryInfoProcOk := true
  queryJobObjectProcOk := true
  queryJobCallOk := true
  limitJobMemory := false
  jobMemoryLimit := 0
  limitProcessMemory := false
  processMemoryLimit := 0
  limitWorkingSet := false
  maximumWorkingSetSize := 0
  ms := { dwMemoryLoad := 20, ullTotalPhys := 17179869184, ullAvailPhys := 8589934592,
          ullTotalVirtual := 140737488355328, ullAvailVirtual := 140737488355328 }

/-- Environment where the size-probing
`GetLogicalProcessorInformationEx` call fails with
`ERROR_INVALID_PARAMETER` (87) instead of `ERROR_INSUFFICIENT_BUFFER`,
leaving `cbSLPIEx = 0`. -/
def glpiUnsupportedEnv : GlpiExEnv where
  firstCallOk := false
  lastError := 87
  requiredSize := 0
  allocOk := true
  secondCallOk := true
  activeGroupCounts := []

/-- Cache environment on a non-x86 target whose OS cache enumeration
fails (reports size 0). -/
def cacheProbeZeroEnv : CacheEnv where
  arch := TargetArch.otherArch
  vendor := CpuVendor.unknownVendor
  maxCpuId := 0
  maxExtendedId := 0
  l2Info := 0
  l3Info := 0
  leaf1Eax := 0
  ncoresInfo := 0
  osCacheSize := 0

/-- Cache environment of an ARM64 target with a 2 MB last-level cache. -/
def cacheArm64Env : CacheEnv where
  arch := TargetArch.arm64
  vendor := CpuVendor.unknownVendor
  maxCpuId := 0
  maxExtendedId := 0
  l2Info := 0
  l3Info := 0
  leaf1Eax := 0
  ncoresInfo := 0
  osCacheSize := 2097152

/-- Cache environment of a 64-bit AMD family 0x10 part: cpuid leaf
0x80000006 reports a 512 KB L2 (ECX bits 31-16 = 512, so
`l2Info = 512 * 2 ^ 16`) and an 8 MB L3 (EDX bits 31-18 = 16, so
`l3Info = 16 * 2 ^ 18`); leaf 0x80000008 reports 4 cores (ECX bits
7-0 = 3); leaf 1 EAX encodes base family 0xF, extended family 1
(family 0x10) and model 4 (`leaf1Eax = 2 ^ 20 + 0xF * 2 ^ 8 + 4 * 2 ^ 4`).
The OS cache enumeration would report the 8 MB L3 as the largest
level. -/
def cacheAmdEnv : CacheEnv where
  arch := TargetArch.amd64
  vendor := CpuVendor.amd
  maxCpuId := 1
  maxExtendedId := 2147483656
  l2Info := 33554432
  l3Info := 4194304
  leaf1Eax := 1052480
  ncoresInfo := 3
  osCacheSize := 8388608

/-- Specification-side "literal largest-cache-level size" on the AMD
vendor path: the larger of the L2 size (cpuid 0x80000006 ECX bits
31-16, in KB) and the L3 size (EDX bits 31-18, in 512 KB units) that
the code reads from the same registers. -/
def amdLargestCacheLevelSize (env : CacheEnv) : Nat :=
  max (env.l2Info / 2 ^ 16 * 1024) (env.l3Info / 2 ^ 18 * 512 * 1024)

/-- Group sizes (each at most 64, more than one group) whose true least
common multiple (5145940800) exceeds `2 ^ 32`, so the `DWORD` `LCM`
accumulation in `InitCPUGroupInfoArray` wraps. -/
def overflowGroups : List Nat := [64, 27, 25, 49, 11, 13, 17]

/-! ## Helper lemmas on the memory budget resolver -/

theorem exitTotalVirtual_eq (env : MemEnv) :
    exitTotalVirtual env = env.ms.ullTotalVirtual := by
  unfold exitTotalVirtual jobPathTotalVirtual
  split_ifs <;> simp_all

theorem rawJobQuota_le_or_max (env : MemEnv) :
    rawJobQuota env ≤ env.ms.ullTotalPhys ∨ rawJobQuota env = UINTPTR_MAX := by
  unfold rawJobQuota
  split
  · exact Or.inl (Nat.min_le_right _ _)
  · exact Or.inr rfl

theorem normalizedJobQuota_ne_max (env : MemEnv) (hwf : env.WF) :
    normalizedJobQuota env ≠ UINTPTR_MAX := by
  obtain ⟨h1, _⟩ := hwf
  have hq := rawJobQuota_le_or_max env
  unfold normalizedJobQuota UINTPTR_MAX at *
  split_ifs <;> omega

theorem restrictedLimitCompute_ne_max (env : MemEnv) (hwf : env.WF) :
    (getRestrictedPhysicalMemoryLimitCompute env).1 ≠ UINTPTR_MAX := by
  have hnq := normalizedJobQuota_ne_max env hwf
  obtain ⟨h1, h2, h3, _⟩ := hwf
  have hq := rawJobQuota_le_or_max env
  have htv := exitTotalVirtual_eq env
  unfold getRestrictedPhysicalMemoryLimitCompute
  split_ifs with hlt
  · unfold exitTotalPhysical normalizedJobQuota UINTPTR_MAX at *
    split_ifs at hlt <;> omega
  · exact hnq

/-! ## Claim theorems -/

/-- Claim C2: when the process runs in a job and the extended limit
information is readable, the raw restricted quota is the minimum of the
quotas that are actually set (unset quotas do not participate as zero),
clamped to the machine total physical memory; in the concrete 100 MB
job-limit example, `GetPhysicalMemoryLimit` returns 100 MB with
`is_restricted = true`. -/
theorem C2_restricted_limit_min_of_set_quotas (env : MemEnv) (hwf : env.WF)
    (hjob : jobQueryReadable env = true) :
    rawJobQuota env = min (minSetQuota env) env.ms.ullTotalPhys ∧
    GetPhysicalMemoryLimit jobEnv100MB = (104857600, true) := by
  obtain ⟨_, _, _, h4, h5, h6⟩ := hwf
  refine ⟨?_, by decide⟩
  unfold rawJobQuota minSetQuota setQuotaList
  rw [hjob]
  simp only [if_true]
  cases hA : env.limitJobMemory <;> cases hB : env.limitProcessMemory <;>
    cases hC : env.limitWorkingSet <;>
      simp only [Bool.false_eq_true, if_false, if_true, List.append_nil,
        List.nil_append, List.foldr, UINTPTR_MAX] <;> omega

/-- Witness for C2 at the concrete example environment. -/
theorem C2_restricted_limit_min_of_set_quotas_witness :
    jobEnv100MB.WF ∧ jobQueryReadable jobEnv100MB = true ∧
    rawJobQuota jobEnv100MB = min (minSetQuota jobEnv100MB) jobEnv100MB.ms.ullTotalPhys := by
  refine ⟨by decide, rfl, ?_⟩
  exact (C2_restricted_limit_min_of_set_quotas jobEnv100MB (by decide) rfl).1

/-- Claim C3: when the total virtual address space is smaller than the
effective physical capacity (the job limit when one is in force,
otherwise the machine total physical memory), the published limit is the
total virtual capacity, the `g_UseRestrictedVirtualMemory` flag is set,
and `GetPhysicalMemoryLimit` reports the value as restricted. -/
theorem C3_virtual_memory_constrained (env : MemEnv)
    (hscope : normalizedJobQuota env ≠ 0 ∨ jobQueryReadable env = false)
    (htv : 0 < env.ms.ullTotalVirtual)
    (hlt : env.ms.ullTotalVirtual < effectivePhysicalCapacity env) :
    getRestrictedPhysicalMemoryLimitCompute env = (env.ms.ullTotalVirtual, true) ∧
    GetPhysicalMemoryLimit env = (env.ms.ullTotalVirtual, true) := by
  have hexit : exitTotalPhysical env = effectivePhysicalCapacity env := by
    rcases hscope with hq | hr
    · unfold exitTotalPhysical effectivePhysicalCapacity
      simp [hq]
    · unfold exitTotalPhysical effectivePhysicalCapacity jobPathTotalVirtual
      rw [hr]
      split_ifs <;> simp_all
  have hcomp : getRestrictedPhysicalMemoryLimitCompute env =
      (env.ms.ullTotalVirtual, true) := by
    unfold getRestrictedPhysicalMemoryLimitCompute
    rw [exitTotalVirtual_eq, hexit, if_pos hlt]
  refine ⟨hcomp, ?_⟩
  unfold GetPhysicalMemoryLimit
  rw [hcomp]
  simp only []
  rw [if_pos (by omega : env.ms.ullTotalVirtual ≠ 0)]

/-- Witness for C3 at the concrete no-job 2 GB / 8 GB example. -/
theorem C3_virtual_memory_constrained_witness :
    (normalizedJobQuota noJobEnv2GB ≠ 0 ∨ jobQueryReadable noJobEnv2GB = false) ∧
    0 < noJobEnv2GB.ms.ullTotalVirtual ∧
    noJobEnv2GB.ms.ullTotalVirtual < effectivePhysicalCapacity noJobEnv2GB ∧
    GetPhysicalMemoryLimit noJobEnv2GB = (2147483648, true) := by
  refine ⟨Or.inr rfl, by decide, by decide, ?_⟩
  exact (C3_virtual_memory_constrained noJobEnv2GB (Or.inr rfl) (by decide) (by decide)).2

/-- Claim C5: the restricted limit is computed at most once.  The
first call (cache holding the `UINTPTR_MAX` sentinel) runs the
computation and publishes a value that can never collide with the
sentinel; every call that finds a published (non-sentinel) cache returns
it unchanged without recomputation. -/
theorem C5_restricted_limit_computed_once (env : MemEnv) (hwf : env.WF) :
    (getRestrictedPhysicalMemoryLimitCall UINTPTR_MAX env).2.2 = true ∧
    (getRestrictedPhysicalMemoryLimitCall UINTPTR_MAX env).2.1 ≠ UINTPTR_MAX ∧
    (∀ cache env2, cache ≠ UINTPTR_MAX →
      getRestrictedPhysicalMemoryLimitCall cache env2 = (cache, cache, false)) := by
  refine ⟨?_, ?_, ?_⟩
  · unfold getRestrictedPhysicalMemoryLimitCall
    simp
  · unfold getRestrictedPhysicalMemoryLimitCall
    simp only [ne_eq, not_true_eq_false, if_false]
    exact restrictedLimitCompute_ne_max env hwf
  · intro cache env2 hc
    unfold getRestrictedPhysicalMemoryLimitCall
    simp [hc]

/-- Witness for C5 at a concrete environment. -/
theorem C5_restricted_limit_computed_once_witness :
    jobNoQuotaEnv.WF ∧
    (getRestrictedPhysicalMemoryLimitCall UINTPTR_MAX jobNoQuotaEnv).2.1 ≠ UINTPTR_MAX := by
  exact ⟨by decide, (C5_restricted_limit_computed_once jobNoQuotaEnv (by decide)).2.1⟩

/-- Claim C9: a readable job with none of the three memory-limit flags
set still yields a non-zero restricted limit equal to the machine total
physical memory (the clamp applies to the `UINTPTR_MAX` sentinel), and
`GetPhysicalMemoryLimit` then reports `is_restricted = true` although no
quota was configured.  The virtual-address-space override (claim C3) is
excluded by the hypothesis that virtual capacity covers physical. -/
theorem C9_no_quota_job_still_restricted (env : MemEnv)
    (hjob : jobQueryReadable env = true)
    (h1 : env.limitJobMemory = false) (h2 : env.limitProcessMemory = false)
    (h3 : env.limitWorkingSet = false)
    (hpos : 0 < env.ms.ullTotalPhys)
    (hmax : env.ms.ullTotalPhys < UINTPTR_MAX)
    (hvm : env.ms.ullTotalPhys ≤ env.ms.ullTotalVirtual) :
    getRestrictedPhysicalMemoryLimitCompute env = (env.ms.ullTotalPhys, false) ∧
    GetPhysicalMemoryLimit env = (env.ms.ullTotalPhys, true) := by
  have hraw : rawJobQuota env = env.ms.ullTotalPhys := by
    unfold rawJobQuota
    rw [hjob]
    simp only [if_true, h1, h2, h3, Bool.false_eq_true, if_false]
    unfold UINTPTR_MAX at *
    omega
  have hnorm : normalizedJobQuota env = env.ms.ullTotalPhys := by
    unfold normalizedJobQuota
    rw [hraw, if_neg (by omega)]
  have hcomp : getRestrictedPhysicalMemoryLimitCompute env =
      (env.ms.ullTotalPhys, false) := by
    unfold getRestrictedPhysicalMemoryLimitCompute
    rw [exitTotalVirtual_eq]
    have hexit : exitTotalPhysical env = env.ms.ullTotalPhys := by
      unfold exitTotalPhysical
      rw [hnorm, if_pos (by omega)]
    rw [hexit, hnorm, if_neg (by omega)]
  refine ⟨hcomp, ?_⟩
  unfold GetPhysicalMemoryLimit
  rw [hcomp]
  simp only []
  rw [if_pos (by omega : env.ms.ullTotalPhys ≠ 0)]

/-- Witness for C9 at the concrete no-quota job environment. -/
theorem C9_no_quota_job_still_restricted_witness :
    jobQueryReadable jobNoQuotaEnv = true ∧
    GetPhysicalMemoryLimit jobNoQuotaEnv = (17179869184, true) := by
  refine ⟨rfl, ?_⟩
  exact (C9_no_quota_job_still_restricted jobNoQuotaEnv rfl rfl rfl rfl
    (by decide) (by decide) (by decide)).2

/-- Claim C6: on every successful `GetWriteWatch` call the reported
granularity equals the platform page size; a granularity mismatch on a
successful OS call trips the debug assertion rather than surfacing as
the recoverable `false` return, which is reserved for OS call failure. -/
theorem C6_write_watch_granularity (osCallRet granularity : Nat) :
    (getWriteWatchModel osCallRet granularity = WriteWatchResult.ok →
      granularity = OS_PAGE_SIZE) ∧
    (osCallRet = 0 → granularity ≠ OS_PAGE_SIZE →
      getWriteWatchModel osCallRet granularity = WriteWatchResult.assertTripped) ∧
    (getWriteWatchModel osCallRet granularity = WriteWatchResult.failed ↔
      osCallRet ≠ 0) := by
  unfold getWriteWatchModel
  split_ifs <;> simp_all

/-- Witness for C6: a mismatching granularity (8192) on a successful
call trips the assertion; the matching granularity succeeds. -/
theorem C6_write_watch_granularity_witness :
    getWriteWatchModel 0 8192 = WriteWatchResult.assertTripped ∧
    getWriteWatchModel 0 4096 = WriteWatchResult.ok := by
  exact ⟨(C6_write_watch_granularity 0 8192).2.1 rfl (by decide), by decide⟩

/-- Claim C7 failing input: in a debug build, when the size-probing
`GetLogicalProcessorInformationEx` call fails with an error other than
`ERROR_INSUFFICIENT_BUFFER`, discovery does not degrade to
`groupsEnabled = false`: `assert(cbSLPIEx)` fires and aborts
initialization (the `return false` guard requires the probing call to
have SUCCEEDED, inverting the check used by `GetLPI` in the same file). -/
theorem C7_discovery_failure_asserts_in_debug :
    initCPUGroupInfoArrayModel glpiUnsupportedEnv = InitArrayOutcome.assertTripped ∧
    initCPUGroupInfoModel true glpiUnsupportedEnv = InitCpuGroupOutcome.assertTripped ∧
    gcToOSInterfaceInitModel 4096 true glpiUnsupportedEnv = none ∧
    initCPUGroupInfoArrayModel glpiUnsupportedEnv ≠ InitArrayOutcome.failed := by
  decide

/-- Claim C10: `GetCurrentProcessCpuCount` always computes a value
between 1 and 64: it is 1 when the affinity query fails, the population
count of `pmask & smask` when that count lies in `[1, 64]`, and 64 when
the count is 0 or exceeds 64; a non-zero cached value is returned
unchanged without recomputation, and the value cached by a first call is
returned by every later call. -/
theorem C10_process_cpu_count (query : Option (Nat × Nat)) (cache : Nat) :
    (1 ≤ getCurrentProcessCpuCountCompute query ∧
      getCurrentProcessCpuCountCompute query ≤ 64) ∧
    getCurrentProcessCpuCountCompute none = 1 ∧
    (∀ pmask smask, query = some (pmask, smask) →
      ((1 ≤ popcount (pmask &&& smask) ∧ popcount (pmask &&& smask) ≤ 64) →
        getCurrentProcessCpuCountCompute query = popcount (pmask &&& smask)) ∧
      ((popcount (pmask &&& smask) = 0 ∨ 64 < popcount (pmask &&& smask)) →
        getCurrentProcessCpuCountCompute query = 64)) ∧
    (cache ≠ 0 → getCurrentProcessCpuCountCall cache query = (cache, cache, false)) ∧
    (∀ query2,
      getCurrentProcessCpuCountCall
          (getCurrentProcessCpuCountCall 0 query).2.1 query2 =
        ((getCurrentProcessCpuCountCall 0 query).1,
         (getCurrentProcessCpuCountCall 0 query).2.1, false)) := by
  have hbound : ∀ q, 1 ≤ getCurrentProcessCpuCountCompute q ∧
      getCurrentProcessCpuCountCompute q ≤ 64 := by
    intro q
    rcases q with _ | ⟨pmask, smask⟩
    · simp [getCurrentProcessCpuCountCompute]
    · simp only [getCurrentProcessCpuCountCompute]
      split_ifs with h <;> omega
  refine ⟨hbound query, rfl, ?_, ?_, ?_⟩
  · intro pmask smask hq
    subst hq
    simp only [getCurrentProcessCpuCountCompute]
    constructor
    · intro hc
      rw [if_neg (by omega)]
    · intro hc
      rw [if_pos hc]
  · intro hc
    unfold getCurrentProcessCpuCountCall
    rw [if_pos hc]
  · intro query2
    have h1 := (hbound query).1
    have hfirst : getCurrentProcessCpuCountCall 0 query =
        (getCurrentProcessCpuCountCompute query,
         getCurrentProcessCpuCountCompute query, true) := by
      unfold getCurrentProcessCpuCountCall
      simp
    rw [hfirst]
    dsimp only
    unfold getCurrentProcessCpuCountCall
    rw [if_pos (show getCurrentProcessCpuCountCompute query ≠ 0 by omega)]

/-- Witness for C10: four processors shared between process and system
masks, and a cached value of 5 returned unchanged. -/
theorem C10_process_cpu_count_witness :
    getCurrentProcessCpuCountCompute (some (11, 15)) = popcount (11 &&& 15) ∧
    getCurrentProcessCpuCountCall 5 (some (11, 15)) = (5, 5, false) := by
  exact ⟨((C10_process_cpu_count (some (11, 15)) 5).2.2.1 11 15 rfl).1 (by decide),
    (C10_process_cpu_count (some (11, 15)) 5).2.2.2.1 (by decide)⟩

/-! ## Cache size probe theorems (claim C8) -/

theorem getCacheSizesCompute_cases (env : CacheEnv) :
    (getCacheSizesCompute env).1 = (getCacheSizesCompute env).2 ∨
    (getCacheSizesCompute env).1 = 3 * (getCacheSizesCompute env).2 := by
  obtain ⟨arch, vendor, mcid, mext, l2, l3, eax, nc, os⟩ := env
  cases arch <;> cases vendor <;>
    simp only [getCacheSizesCompute, cacheSizesX86] <;>
    first
      | (left; trivial)
      | (right; omega)
      | (split_ifs <;> (try dsimp only) <;>
          first | (left; trivial) | (right; omega))

theorem getCacheSizesCompute_trueSize_os (env : CacheEnv)
    (hcase : env.vendor = CpuVendor.intel ∨ env.arch = TargetArch.arm64 ∨
      env.arch = TargetArch.otherArch) :
    (getCacheSizesCompute env).2 = env.osCacheSize := by
  obtain ⟨arch, vendor, mcid, mext, l2, l3, eax, nc, os⟩ := env
  dsimp only at hcase ⊢
  rcases hcase with hv | ha | ha
  · subst hv
    cases arch <;>
      first
        | rfl
        | (simp only [getCacheSizesCompute, cacheSizesX86]; split_ifs <;> rfl)
  · subst ha
    rfl
  · subst ha
    rfl

/-- Claim C8 counterexample: two failures of the claim as stated, each
at an explicit concrete input.  First, when the probe yields a zero
scaled size (the OS cache enumeration fails on a generic target), the
pair is NOT cached: the slow path runs again on the second call, so it
is not "computed once".  Second, on the AMD vendor path the
trueSize=true result is the deduced L2 plus per-core share of L3
(512 KB + 8 MB / 4 = 2621440 bytes), which is not the literal
largest-cache-level size (the 8 MB L3 read from the same cpuid
registers, and also what the OS enumeration would report). -/
theorem C8_counterexample_cache_probe :
    ((getCacheSizeCall (0, 0) cacheProbeZeroEnv true).2.2 = true ∧
     (getCacheSizeCall (getCacheSizeCall (0, 0) cacheProbeZeroEnv true).2.1
        cacheProbeZeroEnv true).2.2 = true) ∧
    (getCacheSizesCompute cacheAmdEnv).2 = 2621440 ∧
    amdLargestCacheLevelSize cacheAmdEnv = 8388608 ∧
    (getCacheSizesCompute cacheAmdEnv).2 ≠ amdLargestCacheLevelSize cacheAmdEnv ∧
    (getCacheSizesCompute cacheAmdEnv).2 ≠ cacheAmdEnv.osCacheSize := by
  decide

/-- Claim C8 (amended): the scaled size is always the true size or
exactly three times it; on every path other than the AMD vendor
deduction and the unrecognised-vendor x86 fallback, the trueSize=true
value is the OS-enumerated largest-cache-level size; a non-zero cached
pair is returned unchanged without recomputation; and after a first
call, every later call on the same immutable hardware facts returns the
same values and leaves the cached pair unchanged (even in the zero
case, where the slow path reruns). -/
theorem C8_cache_size_relation_and_caching (env : CacheEnv) (state : Nat × Nat)
    (trueSize : Bool) :
    ((getCacheSizesCompute env).1 = (getCacheSizesCompute env).2 ∨
      (getCacheSizesCompute env).1 = 3 * (getCacheSizesCompute env).2) ∧
    ((env.vendor = CpuVendor.intel ∨ env.arch = TargetArch.arm64 ∨
        env.arch = TargetArch.otherArch) →
      (getCacheSizesCompute env).2 = env.osCacheSize) ∧
    (state.1 ≠ 0 →
      getCacheSizeCall state env trueSize =
        ((if trueSize then state.2 else state.1), state, false)) ∧
    (∀ trueSize2,
      (getCacheSizeCall (getCacheSizeCall (0, 0) env trueSize).2.1 env trueSize2).1 =
        (if trueSize2 then (getCacheSizesCompute env).2
         else (getCacheSizesCompute env).1) ∧
      (getCacheSizeCall (getCacheSizeCall (0, 0) env trueSize).2.1 env trueSize2).2.1 =
        (getCacheSizeCall (0, 0) env trueSize).2.1) := by
  refine ⟨getCacheSizesCompute_cases env, getCacheSizesCompute_trueSize_os env, ?_, ?_⟩
  · intro hs
    unfold getCacheSizeCall
    rw [if_pos hs]
  · intro trueSize2
    have hfirst : (getCacheSizeCall (0, 0) env trueSize).2.1 = getCacheSizesCompute env := by
      unfold getCacheSizeCall
      simp
    rw [hfirst]
    unfold getCacheSizeCall
    split_ifs <;> simp_all

/-- Witness for C8: on the ARM64 environment the trueSize=true value is
the OS-reported 2 MB cache, and a non-zero cached pair (the tripled
2 MB) is returned unchanged without recomputation. -/
theorem C8_cache_size_relation_and_caching_witness :
    (getCacheSizesCompute cacheArm64Env).2 = 2097152 ∧
    getCacheSizeCall (6291456, 2097152) cacheArm64Env true =
      (2097152, (6291456, 2097152), false) := by
  have hos := (C8_cache_size_relation_and_caching cacheArm64Env (6291456, 2097152)
    true).2.1 (Or.inr (Or.inl rfl))
  have h := (C8_cache_size_relation_and_caching cacheArm64Env (6291456, 2097152)
    true).2.2.1 (by decide)
  exact ⟨hos, by simpa using h⟩

/-! ## Group weight theorems (claim C1) -/

theorem GCDAux_eq_gcd (fuel : Nat) : ∀ u v, v < fuel → GCDAux fuel u v = Nat.gcd v u := by
  induction fuel with
  | zero => intro u v h; omega
  | succ f ih =>
    intro u v h
    unfold GCDAux
    split_ifs with hv
    · subst hv
      simp
    · have hm : u % v < v := Nat.mod_lt u (by omega)
      rw [ih v (u % v) (by omega)]
      exact (Nat.gcd_rec v u).symm

theorem GCD_eq_gcd (u v : Nat) : GCD u v = Nat.gcd u v := by
  rw [GCD, GCDAux_eq_gcd (v + 1) u v (by omega), Nat.gcd_comm]

theorem LCM_eq_lcm (u v : Nat) (h : Nat.lcm u v < 2 ^ 32) : LCM u v = Nat.lcm u v := by
  have hdvd : Nat.gcd u v ∣ u := Nat.gcd_dvd_left u v
  have h2 : u / Nat.gcd u v * v = Nat.lcm u v := by
    have h3 : Nat.lcm u v = u * v / Nat.gcd u v := rfl
    rw [h3, Nat.mul_comm u v, Nat.mul_div_assoc v hdvd, Nat.mul_comm]
  unfold LCM
  rw [GCD_eq_gcd, h2, Nat.mod_eq_of_lt h]

theorem foldl_lcm_dvd_init (l : List Nat) : ∀ a, a ∣ List.foldl Nat.lcm a l := by
  induction l with
  | nil => intro a; simp
  | cons m rest ih =>
    intro a
    simp only [List.foldl]
    exact dvd_trans (Nat.dvd_lcm_left a m) (ih (Nat.lcm a m))

theorem foldl_lcm_dvd_mem (l : List Nat) : ∀ a n, n ∈ l → n ∣ List.foldl Nat.lcm a l := by
  induction l with
  | nil => intro a n hn; cases hn
  | cons m rest ih =>
    intro a n hn
    simp only [List.foldl]
    rcases List.mem_cons.mp hn with h | h
    · subst h
      exact dvd_trans (Nat.dvd_lcm_right a n) (foldl_lcm_dvd_init rest _)
    · exact ih _ n h

theorem foldl_lcm_pos (l : List Nat) : ∀ a, 0 < a → (∀ n ∈ l, 0 < n) →
    0 < List.foldl Nat.lcm a l := by
  induction l with
  | nil => intro a ha _; simpa using ha
  | cons m rest ih =>
    intro a ha hl
    simp only [List.foldl]
    refine ih _ ?_ (fun n hn => hl n (List.mem_cons_of_mem m hn))
    have hm : 0 < m := hl m (List.mem_cons_self m rest)
    have := Nat.lcm_ne_zero (by omega : a ≠ 0) (by omega : m ≠ 0)
    omega

theorem foldl_LCM_eq_foldl_lcm (l : List Nat) : ∀ a, 0 < a → (∀ n ∈ l, 0 < n) →
    List.foldl Nat.lcm a l < 2 ^ 32 →
    List.foldl LCM a l = List.foldl Nat.lcm a l := by
  induction l with
  | nil => intro a _ _ _; rfl
  | cons m rest ih =>
    intro a ha hl hfit
    simp only [List.foldl] at hfit ⊢
    have hm : 0 < m := hl m (List.mem_cons_self m rest)
    have hlcmpos : 0 < Nat.lcm a m := by
      have := Nat.lcm_ne_zero (by omega : a ≠ 0) (by omega : m ≠ 0)
      omega
    have hpos : 0 < List.foldl Nat.lcm (Nat.lcm a m) rest :=
      foldl_lcm_pos rest _ hlcmpos (fun n hn => hl n (List.mem_cons_of_mem m hn))
    have hlt : Nat.lcm a m < 2 ^ 32 :=
      lt_of_le_of_lt (Nat.le_of_dvd hpos (foldl_lcm_dvd_init rest _)) hfit
    rw [LCM_eq_lcm a m hlt]
    exact ih _ hlcmpos (fun n hn => hl n (List.mem_cons_of_mem m hn)) hfit

/-- Claim C1 (amended): for a discovered multi-group topology in which
every group has at least one active processor and the true least common
multiple of the group sizes fits in a `DWORD`, every group's
`groupWeight * nr_active` equals that least common multiple — the same
value for every group, exactly. -/
theorem C1_group_weight_times_count_is_lcm (groups : List Nat)
    (_henabled : 1 < groups.length)
    (hpos : ∀ n ∈ groups, 0 < n)
    (hfit : List.foldl Nat.lcm 1 groups < 2 ^ 32) :
    ∀ n ∈ groups, groupWeightOf groups n * n = List.foldl Nat.lcm 1 groups := by
  intro n hn
  have hW : dwWeightOf groups = List.foldl Nat.lcm 1 groups :=
    foldl_LCM_eq_foldl_lcm groups 1 (by omega) hpos hfit
  unfold groupWeightOf
  rw [hW]
  exact Nat.div_mul_cancel (foldl_lcm_dvd_mem groups 1 n hn)

/-- Claim C1 counterexample: seven groups, each of at most 64
processors, whose true least common multiple (5145940800) exceeds
`2 ^ 32`; the wrapped `DWORD` weight is 850973504, and
`groupWeight * nr_active` neither equals the least common multiple nor
is the same across groups. -/
theorem C1_counterexample_weight_overflow :
    (1 < overflowGroups.length ∧ ∀ n ∈ overflowGroups, 0 < n) ∧
    groupWeightOf overflowGroups 17 * 17 ≠ List.foldl Nat.lcm 1 overflowGroups ∧
    groupWeightOf overflowGroups 64 * 64 ≠ groupWeightOf overflowGroups 27 * 27 := by
  exact ⟨⟨by decide, by decide⟩, by decide, by decide⟩

/-- Witness for C1 on two groups of sizes 4 and 6 (LCM 12: weights 3
and 2, both products equal to 12). -/
theorem C1_group_weight_times_count_is_lcm_witness :
    (1 < ([4, 6] : List Nat).length ∧ (∀ n ∈ ([4, 6] : List Nat), 0 < n) ∧
      List.foldl Nat.lcm 1 [4, 6] < 2 ^ 32) ∧
    ∀ n ∈ ([4, 6] : List Nat),
      groupWeightOf [4, 6] n * n = List.foldl Nat.lcm 1 [4, 6] := by
  exact ⟨⟨by decide, by decide, by decide⟩,
    C1_group_weight_times_count_is_lcm [4, 6] (by decide) (by decide) (by decide)⟩

/-! ## Topology partition theorems (claim C4) -/

theorem foldl_add_mod_eq (l : List Nat) : ∀ a, a + l.sum < 2 ^ 32 →
    List.foldl (fun acc nr => (acc + nr) % 2 ^ 32) a l = a + l.sum := by
  induction l with
  | nil => intro a _; simp
  | cons m rest ih =>
    intro a h
    simp only [List.sum_cons] at h ⊢
    simp only [List.foldl]
    rw [Nat.mod_eq_of_lt (by omega), ih (a + m) (by omega)]
    omega

theorem initRangesAux_eq (l : List Nat) : ∀ b, (∀ n ∈ l, 0 < n) →
    b + l.sum < 2 ^ 16 →
    initCPUGroupInfoRangeAux b l = rangesFrom b l := by
  induction l with
  | nil => intro b _ _; rfl
  | cons m rest ih =>
    intro b hpos hfit
    simp only [List.sum_cons] at hfit
    have hm : 0 < m := hpos m (List.mem_cons_self m rest)
    simp only [initCPUGroupInfoRangeAux, rangesFrom]
    have h1 : (b + m) % 2 ^ 16 = b + m := Nat.mod_eq_of_lt (by omega)
    rw [h1]
    have h2 : (b + m + (2 ^ 16 - 1)) % 2 ^ 16 = b + m - 1 := by omega
    rw [h2, ih (b + m) (fun n hn => hpos n (List.mem_cons_of_mem m hn)) (by omega)]

theorem rangesFrom_get (l : List Nat) : ∀ b g, g < l.length →
    (rangesFrom b l)[g]? = some (b + sumTo l g, b + sumTo l (g + 1) - 1) := by
  induction l with
  | nil => intro b g hg; simp at hg
  | cons m rest ih =>
    intro b g hg
    cases g with
    | zero => simp [rangesFrom, sumTo]
    | succ g2 =>
      simp only [rangesFrom, sumTo, List.getElem?_cons_succ]
      rw [ih (b + m) g2 (by simpa using hg)]
      simp only [Option.some.injEq, Prod.mk.injEq]
      omega

theorem groupIdxOf_bounds (l : List Nat) : ∀ pn, (∀ n ∈ l, 0 < n) → pn < l.sum →
    groupIdxOf l pn < l.length ∧ sumTo l (groupIdxOf l pn) ≤ pn ∧
    pn < sumTo l (groupIdxOf l pn + 1) := by
  induction l with
  | nil => intro pn _ h; simp at h
  | cons m rest ih =>
    intro pn hpos hlt
    simp only [List.sum_cons] at hlt
    by_cases hm : pn < m
    · simp only [groupIdxOf, if_pos hm, sumTo]
      refine ⟨by simp, by omega, by omega⟩
    · simp only [groupIdxOf, if_neg hm]
      obtain ⟨i1, i2, i3⟩ := ih (pn - m)
        (fun n hn => hpos n (List.mem_cons_of_mem m hn)) (by omega)
      simp only [sumTo, List.length_cons]
      refine ⟨by omega, by omega, by omega⟩

theorem sumTo_mono (l : List Nat) : ∀ g h, g ≤ h → sumTo l g ≤ sumTo l h := by
  induction l with
  | nil => intro g h _; cases g <;> cases h <;> simp [sumTo]
  | cons m rest ih =>
    intro g h hgh
    cases g with
    | zero =>
      have : sumTo (m :: rest) 0 = 0 := rfl
      omega
    | succ g2 =>
      cases h with
      | zero => omega
      | succ h2 =>
        simp only [sumTo]
        have := ih g2 h2 (by omega)
        omega

theorem groupIdx_unique (l : List Nat) (pn g : Nat) (_hg : g < l.length)
    (h1 : sumTo l g ≤ pn) (h2 : pn < sumTo l (g + 1))
    (hpos : ∀ n ∈ l, 0 < n) (hpn : pn < l.sum) :
    g = groupIdxOf l pn := by
  obtain ⟨i1, i2, i3⟩ := groupIdxOf_bounds l pn hpos hpn
  rcases Nat.lt_trichotomy g (groupIdxOf l pn) with h | h | h
  · have := sumTo_mono l (g + 1) (groupIdxOf l pn) (by omega)
    omega
  · exact h
  · have := sumTo_mono l (groupIdxOf l pn + 1) g (by omega)
    omega

theorem GetGroupForProcessorAux_eq (l : List Nat) :
    ∀ pn i b, (∀ n ∈ l, 0 < n) → b + l.sum < 2 ^ 16 → b ≤ pn → pn < b + l.sum →
    GetGroupForProcessorAux l pn i b (pn - b) =
      some (i + groupIdxOf l (pn - b),
        (pn - b) - sumTo l (groupIdxOf l (pn - b))) := by
  induction l with
  | nil =>
    intro pn i b _ _ hb hlt
    simp only [List.sum_nil] at hlt
    omega
  | cons m rest ih =>
    intro pn i b hpos hfit hb hlt
    simp only [List.sum_cons] at hfit hlt
    have hm : 0 < m := hpos m (List.mem_cons_self m rest)
    simp only [GetGroupForProcessorAux]
    have hbt : (b + m) % 2 ^ 16 = b + m := Nat.mod_eq_of_lt (by omega)
    rw [hbt]
    by_cases hcase : pn < b + m
    · rw [if_pos hcase]
      have hidx : groupIdxOf (m :: rest) (pn - b) = 0 := by
        simp only [groupIdxOf]
        rw [if_pos (by omega)]
      rw [hidx]
      simp only [sumTo, Nat.add_zero, Nat.sub_zero]
    · rw [if_neg hcase]
      have harg : (pn + 2 ^ 16 - (b + m)) % 2 ^ 16 = pn - (b + m) := by omega
      rw [harg]
      rw [ih pn (i + 1) (b + m) (fun n hn => hpos n (List.mem_cons_of_mem m hn))
        (by omega) (by omega) (by omega)]
      have hidx : groupIdxOf (m :: rest) (pn - b) =
          groupIdxOf rest (pn - (b + m)) + 1 := by
        simp only [groupIdxOf]
        rw [if_neg (by omega)]
        congr 2
        omega
      rw [hidx]
      simp only [sumTo, Option.some.injEq, Prod.mk.injEq]
      omega

/-- Claim C4: for a discovered topology (positive group sizes, total
processor count fitting the `WORD` arithmetic of the range loop), the
accumulated `g_nProcessors` equals the sum of the group sizes, the
`begin`/`end` ranges computed by `InitCPUGroupInfoRange` are the exact
prefix-sum ranges (forming a contiguous, non-overlapping partition of
`[0, total)`), and for every global processor index `pn < total`,
`GetGroupForProcessor` returns the unique group whose range contains
`pn` together with the group-relative index `pn - begin(group)`. -/
theorem C4_topology_partition (groups : List Nat)
    (hpos : ∀ n ∈ groups, 0 < n) (hfit : groups.sum < 2 ^ 16) :
    nProcessorsOf groups = groups.sum ∧
    initCPUGroupInfoRange groups = rangesFrom 0 groups ∧
    (∀ g, g < groups.length →
      (rangesFrom 0 groups)[g]? =
        some (sumTo groups g, sumTo groups (g + 1) - 1)) ∧
    (∀ pn, pn < groups.sum →
      groupIdxOf groups pn < groups.length ∧
      sumTo groups (groupIdxOf groups pn) ≤ pn ∧
      pn < sumTo groups (groupIdxOf groups pn + 1) ∧
      GetGroupForProcessor groups pn =
        some (groupIdxOf groups pn, pn - sumTo groups (groupIdxOf groups pn)) ∧
      (∀ g, g < groups.length → sumTo groups g ≤ pn →
        pn < sumTo groups (g + 1) → g = groupIdxOf groups pn)) := by
  refine ⟨?_, ?_, ?_, ?_⟩
  · unfold nProcessorsOf
    rw [foldl_add_mod_eq groups 0 (by omega)]
    omega
  · exact initRangesAux_eq groups 0 hpos (by omega)
  · intro g hg
    simpa using rangesFrom_get groups 0 g hg
  · intro pn hpn
    obtain ⟨i1, i2, i3⟩ := groupIdxOf_bounds groups pn hpos hpn
    refine ⟨i1, i2, i3, ?_, ?_⟩
    · unfold GetGroupForProcessor
      rw [Nat.mod_eq_of_lt (by omega)]
      have h := GetGroupForProcessorAux_eq groups pn 0 0 hpos (by omega)
        (by omega) (by omega)
      simpa using h
    · intro g hg hle hlt
      exact groupIdx_unique groups pn g hg hle hlt hpos hpn

/-- Witness for C4 on three groups of sizes 2, 3 and 2. -/
theorem C4_topology_partition_witness :
    ((∀ n ∈ ([2, 3, 2] : List Nat), 0 < n) ∧ ([2, 3, 2] : List Nat).sum < 2 ^ 16) ∧
    nProcessorsOf [2, 3, 2] = 7 ∧
    initCPUGroupInfoRange [2, 3, 2] = [(0, 1), (2, 4), (5, 6)] ∧
    GetGroupForProcessor [2, 3, 2] 3 = some (1, 1) := by
  have h := C4_topology_partition [2, 3, 2] (by decide) (by decide)
  refine ⟨⟨by decide, by decide⟩, ?_, by decide, by decide⟩
  rw [h.1]
  decide

end GcenvWindows
